import Mathlib

/-!
Verification development for the road-names repository (`road_names.py`).

The tag-filtering and coordinate-projection pipeline of `road_names.py` is
shallowly embedded below.  Python floats are modelled as rationals (`ℚ`);
XML elements are modelled as typed entities whose attributes (`id`, `lon`,
`lat`, `ref`, `k`, `v`) are already parsed, matching the access pattern of
the source (`child.get(...)` followed by `int(...)` / `astype(float)`).
Pandas operations are modelled as follows: `DataFrame` rows become lists of
`Row`; `sort_values` (by `id`) becomes `List.insertionSort`; `.loc[id_list]`
becomes `locList`, which raises (returns `Except.error`) when a requested
label is absent and returns every matching row (one per duplicate) otherwise,
concatenated in label order.  Exceptions raised by Python code are modelled
with `Except PipelineError`.
-/

/-- Errors observable from the embedded pipeline.  `unknownNodeId` models the
pandas `KeyError` raised by `.loc` on a missing label (the spec names it
`UnknownNodeIdError`).  `invalidBounds` is the name the spec gives to a
bounds-validation failure; no code path of the source produces it, since
`BBox.__post_init__` (road_names.py lines 20-39) performs no validation. -/
inductive PipelineError where
  | unknownNodeId (id : Int)
  | invalidBounds
deriving DecidableEq

/-- `BBox` (road_names.py lines 13-18): the four bounds.  Derived fields of
`__post_init__` are modelled as functions below. -/
structure BBox where
  lon_min : Rat
  lon_max : Rat
  lat_min : Rat
  lat_max : Rat
deriving DecidableEq

/-- `self.lon_mid = (self.lon_min + self.lon_max) / 2` (line 34). -/
def BBox.lon_mid (b : BBox) : Rat := (b.lon_min + b.lon_max) / 2

/-- `self.lat_mid = (self.lat_min + self.lat_max) / 2` (line 35). -/
def BBox.lat_mid (b : BBox) : Rat := (b.lat_min + b.lat_max) / 2

/-- `self.lon_span = self.lon_max - self.lon_min` (line 36). -/
def BBox.lon_span (b : BBox) : Rat := b.lon_max - b.lon_min

/-- `self.lat_span = self.lat_max - self.lat_min` (line 37). -/
def BBox.lat_span (b : BBox) : Rat := b.lat_max - b.lat_min

/-- The Python constructor `BBox(...)`, whose `__post_init__` (lines 20-39)
performs no validation and raises nothing: it always succeeds.  The `Except`
return type makes the absence of a failure path statable. -/
def mkBBox (lon_min lon_max lat_min lat_max : Rat) : Except PipelineError BBox :=
  Except.ok { lon_min := lon_min, lon_max := lon_max, lat_min := lat_min, lat_max := lat_max }

/-- `Tag` (lines 96-103): a key and an optional value. -/
structure Tag where
  k : String
  v : Option String := none
deriving DecidableEq

/-- A child element of a `way` element: an `nd` child carrying a parsed
integer `ref` attribute, a `tag` child carrying optional `k`/`v` attributes
(`child.get` returns `None` when absent), or any other child element. -/
inductive WayChild where
  | nd (ref : Int)
  | tagChild (k : Option String) (v : Option String)
  | otherChild
deriving DecidableEq

/-- A `way` element: its list of child elements. -/
structure Way where
  children : List WayChild
deriving DecidableEq

/-- A top-level entity of the parsed OSM document: a `node` element with
parsed `id`, `lon`, `lat` attributes, a `way` element, or any other element. -/
inductive Entity where
  | node (id : Int) (lon : Rat) (lat : Rat)
  | way (children : List WayChild)
  | otherEntity
deriving DecidableEq

/-- The parsed OSM document: its top-level children. -/
structure Doc where
  children : List Entity
deriving DecidableEq

/-- A row of the pandas id/lon/lat table (`_create_id_lat_lon_table`),
indexed by `id`.  The `x`/`y` columns are absent (`none`) until the
projection loop of `_process_views` (lines 332-336) assigns them. -/
structure Row where
  id : Int
  lon : Rat
  lat : Rat
  x : Option Rat := none
  y : Option Rat := none
deriving DecidableEq

/-- `_way_has_tag` (lines 106-125): scan the way's children; skip children
that are not `tag` elements, skip on key mismatch, skip on value mismatch
when the criterion specifies a value; return `True` at the first match. -/
def way_has_tag (way : Way) (tag : Tag) : Bool :=
  way.children.any fun child =>
    match child with
    | WayChild.tagChild k v => decide (k = some tag.k) && (tag.v.isNone || decide (v = tag.v))
    | _ => false

/-- `_way_has_tags` (lines 128-138): every listed tag is present. -/
def way_has_tags (way : Way) (tags : List Tag) : Bool :=
  tags.all fun tag => way_has_tag way tag

/-- `_way_not_has_tags` (lines 141-154): none of the listed tags is present. -/
def way_not_has_tags (way : Way) (tags : List Tag) : Bool :=
  tags.all fun tag => ! way_has_tag way tag

/-- `View` (lines 157-176): tag criteria plus the mutable result state
initialised empty by `__post_init__`. -/
structure View where
  true_tags : List Tag := []
  false_tags : List Tag := []
  ways : List Way := []
  way_ids : List (List Int) := []
  way_lonlat : List (List Row) := []
deriving DecidableEq

/-- `View.test_and_add_way` (lines 178-189): return unchanged unless all
`true_tags` are present and no `false_tag` is present; otherwise append. -/
def test_and_add_way (view : View) (way : Way) : View :=
  if ! way_has_tags way view.true_tags then view
  else if ! way_not_has_tags way view.false_tags then view
  else { view with ways := view.ways ++ [way] }

/-- The node rows encountered by `_create_id_lat_lon_table` (lines 276-285):
walk the document, collecting `id`, `lon`, `lat` of each `node` element. -/
def nodeRows (d : Doc) : List Row :=
  d.children.filterMap fun e =>
    match e with
    | Entity.node i lo la => some { id := i, lon := lo, lat := la }
    | _ => none

/-- `_create_id_lat_lon_table` (lines 268-292): collect all node rows and
sort by `id` (`sort_values(by=["id"])`), keeping every row — duplicates,
whether coordinates agree or differ, are all retained. -/
def create_id_lat_lon_table (d : Doc) : List Row :=
  List.insertionSort (fun a b => a.id ≤ b.id) (nodeRows d)

/-- `_select_ways` (lines 294-302): the top-level `way` children. -/
def select_ways (d : Doc) : List Way :=
  d.children.filterMap fun e =>
    match e with
    | Entity.way cs => some { children := cs }
    | _ => none

/-- The `nd`-reference extraction of `_process_views` (lines 318-323): the
`ref` of each `nd` child, in child order. -/
def wayNodeIds (way : Way) : List Int :=
  way.children.filterMap fun c =>
    match c with
    | WayChild.nd r => some r
    | _ => none

/-- All rows of the table carrying a given index label, in table order
(pandas `.loc` on one label of a non-unique index). -/
def locRows (table : List Row) (i : Int) : List Row :=
  table.filter fun r => decide (r.id = i)

/-- Pandas `df.loc[id_list]` (line 327): raises `KeyError` when some
requested label is absent from the index; otherwise returns, for each label
in order, every row carrying it. -/
def locList (table : List Row) (ids : List Int) : Except PipelineError (List Row) :=
  match ids.find? (fun i => (locRows table i).isEmpty) with
  | some i => Except.error (PipelineError.unknownNodeId i)
  | none => Except.ok (ids.flatMap fun i => locRows table i)

/-- The view after the test-and-add loop of `_process_views` (lines 312-314). -/
def viewAfterFilter (ways : List Way) (v : View) : View :=
  ways.foldl test_and_add_way v

/-- The view after the id-extraction loop of `_process_views` (lines
316-323): the `nd`-reference list of every way now held (including any
preexisting ones) is appended to `way_ids`. -/
def viewAfterIds (ways : List Way) (v : View) : View :=
  { viewAfterFilter ways v with
    way_ids := (viewAfterFilter ways v).way_ids ++
      (viewAfterFilter ways v).ways.map wayNodeIds }

/-- One iteration of the first loop of `_process_views` (lines 310-327) for
one view: test-and-add every way, extract the `nd`-reference lists, then
append the `.loc` lookup of every reference list now held (lines 325-327);
a pandas `KeyError` on any lookup propagates. -/
def processView (ways : List Way) (table : List Row) (v : View) :
    Except PipelineError View :=
  match (viewAfterIds ways v).way_ids.mapM (locList table) with
  | Except.error e => Except.error e
  | Except.ok dfs =>
    Except.ok { viewAfterIds ways v with
      way_lonlat := (viewAfterIds ways v).way_lonlat ++ dfs }

/-- The projection of lines 334-336 applied to one row:
`df["x"] = (df["lon"] - lon_min) / lon_span * width`,
`y = (df["lat"] - lat_min) / lat_span * height`, `df["y"] = height - y`. -/
def projectRow (b : BBox) (width height : Rat) (r : Row) : Row :=
  { r with
    x := some ((r.lon - b.lon_min) / b.lon_span * width)
    y := some (height - (r.lat - b.lat_min) / b.lat_span * height) }

/-- The second loop of `_process_views` (lines 332-336) for one view:
assign the `x` and `y` columns of every stored frame. -/
def projectView (b : BBox) (width height : Rat) (v : View) : View :=
  { v with way_lonlat := v.way_lonlat.map fun df => df.map (projectRow b width height) }

/-- `_process_views` (lines 304-336): the per-view filter/resolve loop
followed by the projection loop over all views. -/
def process_views (ways : List Way) (table : List Row) (b : BBox)
    (width height : Rat) (views : List View) : Except PipelineError (List View) :=
  match views.mapM (processView ways table) with
  | Except.error e => Except.error e
  | Except.ok vs => Except.ok (vs.map (projectView b width height))

/-- The value `processView` returns on success: every reference list
resolved through the table, appended to the stored frames. -/
def resolvedView (ways : List Way) (table : List Row) (v : View) : View :=
  { viewAfterIds ways v with
    way_lonlat := (viewAfterIds ways v).way_lonlat ++
      (viewAfterIds ways v).way_ids.map fun ids => ids.flatMap fun i => locRows table i }

/-- The pure composite pipeline: build the id table and the way list from
the document (as `load_box`/`_preprocess` do) and run `_process_views`.
`width` and `height` are parameters, as in the source they are fields set
before `_process_views` runs (the source derives `height` from `width`
via `np.cos`, outside this embedded fragment). -/
def runPipeline (d : Doc) (b : BBox) (views : List View) (width height : Rat) :
    Except PipelineError (List View) :=
  process_views (select_ways d) (create_id_lat_lon_table d) b width height views

/-- Re-running `_process_views` against the very View objects produced by a
first run (the source never resets `view.ways` / `way_ids` / `way_lonlat`). -/
def rerunPipeline (d : Doc) (b : BBox) (views : List View) (width height : Rat) :
    Except PipelineError (List View) := do
  let vs ← runPipeline d b views width height
  runPipeline d b vs width height

/-- `highway_types` of `generate_views` (line 364). -/
def highway_types : List String := ["residential", "tertiary"]

/-- `load_views` (lines 247-254): `self.views += list(views)`. -/
def load_views (cur : List View) (views : List View) : List View :=
  cur ++ views

/-- `generate_views` (lines 357-369): build one fresh View per highway type
(its `count` parameter is never read) and register them via `load_views`. -/
def generate_views (cur : List View) (count : Nat) : List View :=
  load_views cur (highway_types.map fun value =>
    { true_tags := [{ k := "highway", v := some value }] })

/-- Rounding of a rational to an integer count of `10^-4` units, modelling
Python's fixed-precision `f"{x:.4f}"` formatting step (ties are resolved
upward in this model; Python resolves them on the binary double). -/
def round4 (q : Rat) : Int := Rat.floor (q * 10000 + 1/2)

/-- The character of a single decimal digit. -/
def digitChar (n : Nat) : Char :=
  match n with
  | 0 => '0' | 1 => '1' | 2 => '2' | 3 => '3' | 4 => '4'
  | 5 => '5' | 6 => '6' | 7 => '7' | 8 => '8' | _ => '9'

/-- Inverse of `digitChar` on decimal digits. -/
def charToDigit (c : Char) : Nat :=
  match c with
  | '0' => 0 | '1' => 1 | '2' => 2 | '3' => 3 | '4' => 4
  | '5' => 5 | '6' => 6 | '7' => 7 | '8' => 8 | '9' => 9
  | _ => 10

/-- Little-endian base-10 digits, computed with structural fuel so that
concrete instances reduce in the kernel; agrees with `Nat.digits 10`. -/
def digitsBase10 : Nat → Nat → List Nat
  | 0, _ => []
  | fuel + 1, n => if n = 0 then [] else n % 10 :: digitsBase10 fuel (n / 10)

/-- The decimal digit characters of a natural number, most significant
first; `0` renders as `"0"`, as Python's formatting does. -/
def natChars (n : Nat) : List Char :=
  if n = 0 then ['0'] else ((digitsBase10 n n).reverse.map digitChar)

/-- Parse a list of decimal digit characters, most significant first. -/
def charsToNat (l : List Char) : Nat :=
  Nat.ofDigits 10 ((l.map charToDigit).reverse)

/-- The fractional block of `f"{x:.4f}"`: exactly four digit characters,
zero-padded on the left (`m < 10000`). -/
def pad4 (m : Nat) : List Char :=
  List.replicate (4 - (natChars m).length) '0' ++ natChars m

/-- The characters Python's `f"{x:.4f}"` produces for a value that rounds
to `k` units of `10^-4`: an optional sign, the integer part, a dot, and the
four-digit fractional part. -/
def fieldChars (k : Int) : List Char :=
  (if k < 0 then ['-'] else []) ++
    natChars (k.natAbs / 10000) ++ '.' :: pad4 (k.natAbs % 10000)

/-- `f"{x:.4f}"` (lines 27-30) as a string over the rounded value. -/
def fmt4 (q : Rat) : String := String.mk (fieldChars (round4 q))

/-- `self.lon_min_str` (line 27). -/
def BBox.lon_min_str (b : BBox) : String := fmt4 b.lon_min

/-- `self.lon_max_str` (line 28). -/
def BBox.lon_max_str (b : BBox) : String := fmt4 b.lon_max

/-- `self.lat_min_str` (line 29). -/
def BBox.lat_min_str (b : BBox) : String := fmt4 b.lat_min

/-- `self.lat_max_str` (line 30). -/
def BBox.lat_max_str (b : BBox) : String := fmt4 b.lat_max

/-- `self.id` (line 31): the four formatted bounds joined by `_`. -/
def BBox.id (b : BBox) : String :=
  b.lon_min_str ++ "_" ++ b.lon_max_str ++ "_" ++ b.lat_min_str ++ "_" ++ b.lat_max_str

/-- Split a character list at the first `_`, dropping the separator. -/
def takeField (l : List Char) : List Char × List Char :=
  (l.takeWhile fun c => decide (c ≠ '_'), (l.dropWhile fun c => decide (c ≠ '_')).drop 1)

/-- Parse one `fieldChars` block back to its integer of `10^-4` units. -/
def parseField (l : List Char) : Int :=
  if l.head? = some '-' then
    -(((charsToNat ((l.drop 1).takeWhile fun c => decide (c ≠ '.'))) * 10000 +
        charsToNat (((l.drop 1).dropWhile fun c => decide (c ≠ '.')).drop 1) : Nat) : Int)
  else
    ((charsToNat (l.takeWhile fun c => decide (c ≠ '.')) * 10000 +
        charsToNat ((l.dropWhile fun c => decide (c ≠ '.')).drop 1) : Nat) : Int)

/-- Parse the four fields of a `BBox.id` string's characters. -/
def parseId (l : List Char) : Int × Int × Int × Int :=
  (parseField (takeField l).1,
    parseField (takeField (takeField l).2).1,
    parseField (takeField (takeField (takeField l).2).2).1,
    parseField (takeField (takeField (takeField l).2).2).2)

/-- The spec's notion of one `tag` child of a way matching a `Tag`
criterion: the key equal exactly, and the value equal exactly when the
criterion specifies one (any value accepted when it does not). -/
def tagMatches (c : WayChild) (t : Tag) : Prop :=
  match c with
  | WayChild.tagChild k v => k = some t.k ∧ (t.v = none ∨ v = t.v)
  | _ => False

/-- The matching condition of `View.test_and_add_way`, as a Bool. -/
def viewMatches (v : View) (w : Way) : Bool :=
  way_has_tags w v.true_tags && way_not_has_tags w v.false_tags

/-- Fixture: a square bounding box with unit spans. -/
def bbox01 : BBox := { lon_min := 0, lon_max := 1, lat_min := 0, lat_max := 1 }

/-- Fixture: a fresh open view (no required tags, no forbidden tags). -/
def viewOpen : View := {}

/-- Fixture: a way whose only child is one `nd` reference to node id 1. -/
def wayRef1 : Way := { children := [WayChild.nd 1] }

/-- Fixture: a document defining node id 1 twice with identical coordinates
`(1/2, 1/2)` plus one way referencing node id 1. -/
def docDup : Doc :=
  { children := [Entity.node 1 (mkRat 1 2) (mkRat 1 2), Entity.node 1 (mkRat 1 2) (mkRat 1 2),
                 Entity.way [WayChild.nd 1]] }

/-- Fixture: a document defining node id 1 twice with differing coordinates. -/
def docConflict : Doc :=
  { children := [Entity.node 1 0 0, Entity.node 1 2 3] }

/-- Fixture: a document with one node and one way referencing the undefined
node id 2. -/
def docMissing : Doc :=
  { children := [Entity.node 1 0 0, Entity.way [WayChild.nd 2]] }

/-- Fixture: a well-formed document with two distinct nodes and one way
referencing both. -/
def docSmall : Doc :=
  { children := [Entity.node 1 0 0, Entity.node 2 1 1,
                 Entity.way [WayChild.nd 1, WayChild.nd 2]] }

/-- Fixture: the row of node id 1 at `(1/2, 1/2)` once projected onto a
10 by 10 canvas over `bbox01`. -/
def rowHalfProj : Row :=
  { id := 1, lon := mkRat 1 2, lat := mkRat 1 2, x := some 5, y := some 5 }

/-- Fixture: the View state the pipeline produces for `viewOpen` on
`docDup`. -/
def viewDupResult : View :=
  { ways := [wayRef1], way_ids := [[1]], way_lonlat := [[rowHalfProj, rowHalfProj]] }

instance {ε α : Type} [DecidableEq ε] [DecidableEq α] : DecidableEq (Except ε α) :=
  fun a b =>
    match a, b with
    | Except.ok x, Except.ok y =>
      if h : x = y then Decidable.isTrue (by rw [h])
      else Decidable.isFalse (fun hh => h (by cases hh; rfl))
    | Except.ok _, Except.error _ => Decidable.isFalse (fun hh => Except.noConfusion hh)
    | Except.error _, Except.ok _ => Decidable.isFalse (fun hh => Except.noConfusion hh)
    | Except.error e, Except.error f =>
      if h : e = f then Decidable.isTrue (by rw [h])
      else Decidable.isFalse (fun hh => h (by cases hh; rfl))

example : way_has_tag { children := [WayChild.tagChild (some "highway") (some "residential")] }
    { k := "highway" } = true := by decide

example : (test_and_add_way {} { children := [] }).ways = [{ children := [] }] := by decide

example : fmt4 (mkRat (-123157) 1000) = "-123.1570" := by with_unfolding_all decide

example : fmt4 (mkRat 49273 1000) = "49.2730" := by with_unfolding_all decide

example : fmt4 0 = "0.0000" := by with_unfolding_all decide

theorem exceptOkBind {ε α β : Type} (a : α) (f : α → Except ε β) :
    (Except.ok a >>= f : Except ε β) = f a := rfl

theorem exceptErrorBind {ε α β : Type} (e : ε) (f : α → Except ε β) :
    (Except.error e >>= f : Except ε β) = Except.error e := rfl

theorem exceptPureEq {ε α : Type} (a : α) : (pure a : Except ε α) = Except.ok a := rfl

/-- If `mapM` succeeds, it succeeds pointwise. -/
theorem mapM_ok_mem {ε α β : Type} (f : α → Except ε β) (l : List α) (ys : List β)
    (h : l.mapM f = Except.ok ys) : ∀ x ∈ l, ∃ y, f x = Except.ok y := by
  induction l generalizing ys with
  | nil => simp
  | cons a as ih =>
    rw [List.mapM_cons] at h
    cases hfa : f a with
    | error e => rw [hfa, exceptErrorBind] at h; exact Except.noConfusion h
    | ok y =>
      rw [hfa, exceptOkBind] at h
      cases hrest : as.mapM f with
      | error e => rw [hrest, exceptErrorBind] at h; exact Except.noConfusion h
      | ok ys2 =>
        intro x hx
        rcases List.mem_cons.mp hx with rfl | hx2
        · exact ⟨y, hfa⟩
        · exact ih ys2 hrest x hx2

/-- If some element fails, `mapM` fails. -/
theorem mapM_error_of_mem {ε α β : Type} (f : α → Except ε β) (l : List α) (x : α)
    (hx : x ∈ l) (e : ε) (hfx : f x = Except.error e) :
    ∃ e2, l.mapM f = Except.error e2 := by
  cases hmapM : l.mapM f with
  | error e2 => exact ⟨e2, rfl⟩
  | ok ys =>
    rcases mapM_ok_mem f l ys hmapM x hx with ⟨y, hy⟩
    rw [hfx] at hy
    exact Except.noConfusion hy

/-- A `mapM` failure originates from some element. -/
theorem mapM_error_mem {ε α β : Type} (f : α → Except ε β) (l : List α) (e : ε)
    (h : l.mapM f = Except.error e) : ∃ x ∈ l, f x = Except.error e := by
  induction l with
  | nil => rw [List.mapM_nil, exceptPureEq] at h; exact Except.noConfusion h
  | cons a as ih =>
    rw [List.mapM_cons] at h
    cases hfa : f a with
    | error e2 =>
      rw [hfa, exceptErrorBind] at h
      cases h
      exact ⟨a, List.mem_cons_self a as, hfa⟩
    | ok y =>
      rw [hfa, exceptOkBind] at h
      cases hrest : as.mapM f with
      | error e2 =>
        rw [hrest, exceptErrorBind] at h
        cases h
        rcases ih hrest with ⟨x, hx, hfx⟩
        exact ⟨x, List.mem_cons_of_mem a hx, hfx⟩
      | ok ys2 =>
        rw [hrest, exceptOkBind, exceptPureEq] at h
        exact Except.noConfusion h

/-- Pointwise success with explicit values determines `mapM`. -/
theorem mapM_eq_ok_map {ε α β : Type} (f : α → Except ε β) (g : α → β) (l : List α)
    (h : ∀ x ∈ l, f x = Except.ok (g x)) : l.mapM f = Except.ok (l.map g) := by
  induction l with
  | nil => rfl
  | cons a as ih =>
    rw [List.mapM_cons, h a (List.mem_cons_self a as), exceptOkBind,
      ih (fun x hx => h x (List.mem_cons_of_mem a hx)), exceptOkBind, List.map_cons]
    rfl

/-- `test_and_add_way` as a single conditional: append on match, else
unchanged. -/
theorem test_and_add_way_eq (v : View) (w : Way) :
    test_and_add_way v w =
      if viewMatches v w then { v with ways := v.ways ++ [w] } else v := by
  unfold test_and_add_way viewMatches
  cases h1 : way_has_tags w v.true_tags <;>
    cases h2 : way_not_has_tags w v.false_tags <;> simp [h1, h2]

/-- The filter loop of `_process_views` appends exactly the matching ways,
in document order, to whatever the view already holds. -/
theorem foldl_test_and_add (ways : List Way) (v : View) :
    List.foldl test_and_add_way v ways =
      { v with ways := v.ways ++ ways.filter (fun w => viewMatches v w) } := by
  induction ways generalizing v with
  | nil => simp
  | cons w ws ih =>
    rw [List.foldl_cons, test_and_add_way_eq]
    by_cases h : viewMatches v w = true
    · rw [if_pos h, ih]
      simp only [viewMatches, Bool.and_eq_true] at h ⊢
      simp [List.filter_cons, h, List.append_assoc]
    · rw [if_neg h, ih]
      simp only [viewMatches, Bool.and_eq_true] at h ⊢
      simp [List.filter_cons, h]

/-- `_way_has_tag` decides exactly the spec's single-criterion match. -/
theorem way_has_tag_iff (w : Way) (t : Tag) :
    way_has_tag w t = true ↔ ∃ c ∈ w.children, tagMatches c t := by
  unfold way_has_tag
  rw [List.any_eq_true]
  constructor
  · rintro ⟨c, hc, hb⟩
    refine ⟨c, hc, ?_⟩
    cases c with
    | tagChild k v =>
      simp only [Bool.and_eq_true, Bool.or_eq_true, decide_eq_true_eq,
        Option.isNone_iff_eq_none] at hb
      exact hb
    | nd r => exact absurd hb (by simp)
    | otherChild => exact absurd hb (by simp)
  · rintro ⟨c, hc, hm⟩
    refine ⟨c, hc, ?_⟩
    cases c with
    | tagChild k v =>
      obtain ⟨h1, h2⟩ := hm
      simp only [Bool.and_eq_true, Bool.or_eq_true, decide_eq_true_eq,
        Option.isNone_iff_eq_none]
      exact ⟨h1, h2⟩
    | nd r => exact hm.elim
    | otherChild => exact hm.elim

/-- `_way_has_tags` decides the spec's `has_all`. -/
theorem way_has_tags_iff (w : Way) (tags : List Tag) :
    way_has_tags w tags = true ↔ ∀ t ∈ tags, ∃ c ∈ w.children, tagMatches c t := by
  unfold way_has_tags
  rw [List.all_eq_true]
  exact forall_congr' fun t => forall_congr' fun _ => way_has_tag_iff w t

/-- `_way_not_has_tags` decides the spec's `has_none`. -/
theorem way_not_has_tags_iff (w : Way) (tags : List Tag) :
    way_not_has_tags w tags = true ↔ ∀ t ∈ tags, ¬ ∃ c ∈ w.children, tagMatches c t := by
  unfold way_not_has_tags
  rw [List.all_eq_true]
  refine forall_congr' fun t => forall_congr' fun _ => ?_
  rw [Bool.not_eq_true', ← way_has_tag_iff]
  exact ⟨fun h => by simp [h], fun h => by simpa using h⟩

/-- The full matching condition of `test_and_add_way`. -/
theorem viewMatches_iff (v : View) (w : Way) :
    viewMatches v w = true ↔
      ((∀ t ∈ v.true_tags, ∃ c ∈ w.children, tagMatches c t) ∧
        ∀ t ∈ v.false_tags, ¬ ∃ c ∈ w.children, tagMatches c t) := by
  unfold viewMatches
  rw [Bool.and_eq_true, way_has_tags_iff, way_not_has_tags_iff]

/-- C1: for every way and every View, the way is appended to the View's
matched-ways list (`ways`) by `test_and_add_way` if and only if every
required tag criterion is matched by some tag child of the way (key equal
exactly; value equal exactly when the criterion specifies a value, any
value accepted when it does not) and no forbidden tag criterion is matched;
otherwise the View is returned unchanged; in particular a View whose
required and forbidden lists are both empty matches every way. -/
theorem c1_matched_ways (v : View) (w : Way) :
    ((test_and_add_way v w).ways = v.ways ++ [w] ↔
      ((∀ t ∈ v.true_tags, ∃ c ∈ w.children, tagMatches c t) ∧
        ∀ t ∈ v.false_tags, ¬ ∃ c ∈ w.children, tagMatches c t)) ∧
    (¬ ((∀ t ∈ v.true_tags, ∃ c ∈ w.children, tagMatches c t) ∧
        ∀ t ∈ v.false_tags, ¬ ∃ c ∈ w.children, tagMatches c t) →
      test_and_add_way v w = v) ∧
    (v.true_tags = [] → v.false_tags = [] →
      (test_and_add_way v w).ways = v.ways ++ [w]) := by
  have hiff := viewMatches_iff v w
  rw [test_and_add_way_eq]
  by_cases h : viewMatches v w = true
  · have hconj := hiff.mp h
    rw [if_pos h]
    exact ⟨⟨fun _ => hconj, fun _ => rfl⟩, fun hn => absurd hconj hn, fun _ _ => rfl⟩
  · have hnconj := fun hc => h (hiff.mpr hc)
    rw [if_neg h]
    refine ⟨⟨fun habs => ?_, fun hc => absurd hc hnconj⟩, fun _ => rfl, fun h1 h2 => ?_⟩
    · exact absurd (List.self_eq_append_right.mp habs) (by simp)
    · exact absurd (hiff.mpr ⟨by simp [h1], by simp [h2]⟩) h

theorem c1_matched_ways_witness :
    (test_and_add_way viewOpen wayRef1).ways = ([] : List Way) ++ [wayRef1] :=
  (c1_matched_ways viewOpen wayRef1).2.2 rfl rfl

/-- C2: for every resolved row, every BBox with `lon_min < lon_max` and
`lat_min < lat_max`, and every canvas width and height, the projected pixel
coordinates are `x = (lon - lon_min) / lon_span * width` and
`y = height - (lat - lat_min) / lat_span * height`; consequently a point at
`(lon_min, lat_min)` projects to `(0, height)` and a point at
`(lon_max, lat_max)` projects to `(width, 0)`. -/
theorem c2_projection (b : BBox) (width height : Rat) (r : Row)
    (hlon : b.lon_min < b.lon_max) (hlat : b.lat_min < b.lat_max) :
    projectRow b width height r =
      { r with x := some ((r.lon - b.lon_min) / b.lon_span * width),
               y := some (height - (r.lat - b.lat_min) / b.lat_span * height) } ∧
    (r.lon = b.lon_min → r.lat = b.lat_min →
      (projectRow b width height r).x = some 0 ∧
      (projectRow b width height r).y = some height) ∧
    (r.lon = b.lon_max → r.lat = b.lat_max →
      (projectRow b width height r).x = some width ∧
      (projectRow b width height r).y = some 0) := by
  have hlonspan : b.lon_max - b.lon_min ≠ 0 := sub_ne_zero.mpr (ne_of_gt hlon)
  have hlatspan : b.lat_max - b.lat_min ≠ 0 := sub_ne_zero.mpr (ne_of_gt hlat)
  refine ⟨rfl, fun h1 h2 => ⟨?_, ?_⟩, fun h1 h2 => ⟨?_, ?_⟩⟩
  · show some ((r.lon - b.lon_min) / b.lon_span * width) = some 0
    rw [h1, sub_self, zero_div, zero_mul]
  · show some (height - (r.lat - b.lat_min) / b.lat_span * height) = some height
    rw [h2, sub_self, zero_div, zero_mul, sub_zero]
  · show some ((r.lon - b.lon_min) / b.lon_span * width) = some width
    rw [h1]
    show some ((b.lon_max - b.lon_min) / (b.lon_max - b.lon_min) * width) = some width
    rw [div_self hlonspan, one_mul]
  · show some (height - (r.lat - b.lat_min) / b.lat_span * height) = some 0
    rw [h2]
    show some (height - (b.lat_max - b.lat_min) / (b.lat_max - b.lat_min) * height) = some 0
    rw [div_self hlatspan, one_mul, sub_self]

theorem c2_projection_witness :
    (projectRow bbox01 100 50 { id := 7, lon := 0, lat := 0 }).x = some 0 ∧
    (projectRow bbox01 100 50 { id := 7, lon := 0, lat := 0 }).y = some 50 :=
  (c2_projection bbox01 100 50 { id := 7, lon := 0, lat := 0 }
    (by decide) (by decide)).2.1 rfl rfl

/-- C9: for every value of its `count` parameter, `generate_views` registers
exactly two fresh Views after the already-registered ones: the first
requiring the tag `(highway, residential)`, the second requiring
`(highway, tertiary)`, each with no forbidden tags; `count` has no effect. -/
theorem c9_generate_views (cur : List View) (count count2 : Nat) :
    generate_views cur count =
      cur ++ [{ true_tags := [{ k := "highway", v := some "residential" }] },
        { true_tags := [{ k := "highway", v := some "tertiary" }] }] ∧
    generate_views cur count = generate_views cur count2 :=
  ⟨rfl, rfl⟩

/-- C5 counterexample: constructing a BBox with `lon_min = 1 >= lon_max = 0`
succeeds (no `InvalidBoundsError` is raised), refuting the claim that
construction fails for such bounds. -/
theorem c5_counterexample :
    mkBBox 1 0 0 1 = Except.ok { lon_min := 1, lon_max := 0, lat_min := 0, lat_max := 1 } :=
  rfl

/-- C5 amended: `BBox.__post_init__` performs no bounds validation, so
construction succeeds for every choice of the four bounds, including
`lon_min >= lon_max` or `lat_min >= lat_max`. -/
theorem c5_amended (lon_min lon_max lat_min lat_max : Rat) :
    mkBBox lon_min lon_max lat_min lat_max =
      Except.ok { lon_min := lon_min, lon_max := lon_max,
                  lat_min := lat_min, lat_max := lat_max } :=
  rfl

/-- C6 counterexample: a document defining node id 1 twice with differing
coordinates `(0,0)` and `(2,3)` builds successfully, both conflicting rows
being retained — no `DuplicateNodeIdError` is raised. -/
theorem c6_counterexample :
    create_id_lat_lon_table docConflict =
      [{ id := 1, lon := 0, lat := 0 }, { id := 1, lon := 2, lat := 3 }] := by
  with_unfolding_all decide

/-- C6 amended: building the node index never fails; every node definition,
whether duplicated with identical or with differing coordinates, is retained
(the table is a permutation — an id-sorted rearrangement — of the document's
node rows). -/
theorem c6_amended (d : Doc) :
    (create_id_lat_lon_table d).Perm (nodeRows d) ∧
    (create_id_lat_lon_table d).length = (nodeRows d).length :=
  ⟨List.perm_insertionSort _ _, (List.perm_insertionSort _ _).length_eq⟩

/-- C10: in the document `docDup`, node id 1 is defined twice with identical
coordinates; both definitions are retained in the node index, and resolving
the way `[nd 1]` (one node reference) yields a point sequence of length 2,
strictly longer than the way's node-reference count of 1. -/
theorem c10_duplicate_retained :
    create_id_lat_lon_table docDup =
      [{ id := 1, lon := mkRat 1 2, lat := mkRat 1 2 },
        { id := 1, lon := mkRat 1 2, lat := mkRat 1 2 }] ∧
    (wayNodeIds wayRef1).length = 1 ∧
    runPipeline docDup bbox01 [viewOpen] 10 10 = Except.ok [viewDupResult] ∧
    viewDupResult.way_lonlat.map List.length = [2] ∧
    (wayNodeIds wayRef1).length < 2 := by
  with_unfolding_all decide

/-- C8 counterexample: feeding the View objects produced by one full run of
the pipeline back into a second run does not reset and repopulate them from
scratch — the rerun output differs from a single run (ways, way_ids and
way_lonlat accumulate duplicates). -/
theorem c8_counterexample :
    rerunPipeline docDup bbox01 [viewOpen] 10 10 ≠
      runPipeline docDup bbox01 [viewOpen] 10 10 := by
  with_unfolding_all decide

/-- C8 amended: the pipeline is a pure function of the document and View
definitions, so two runs from identically defined, freshly constructed Views
yield identical matched-ways order and identical projected coordinates; but
re-running the filter loop against the very same View objects accumulates —
it appends the matching ways again instead of resetting, doubling the
matched list. -/
theorem c8_amended (d : Doc) (b : BBox) (views : List View) (width height : Rat)
    (ways : List Way) (v : View) :
    runPipeline d b views width height = runPipeline d b views width height ∧
    (List.foldl test_and_add_way v ways).ways =
      v.ways ++ ways.filter (fun w => viewMatches v w) ∧
    (List.foldl test_and_add_way (List.foldl test_and_add_way v ways) ways).ways =
      v.ways ++ ways.filter (fun w => viewMatches v w) ++
        ways.filter (fun w => viewMatches v w) := by
  refine ⟨rfl, by rw [foldl_test_and_add], ?_⟩
  rw [foldl_test_and_add, foldl_test_and_add]
  simp [viewMatches, List.append_assoc]

/-- `viewAfterFilter` as an explicit record. -/
theorem viewAfterFilter_eq (ways : List Way) (v : View) :
    viewAfterFilter ways v =
      { v with ways := v.ways ++ ways.filter (fun w => viewMatches v w) } :=
  foldl_test_and_add ways v

/-- `viewAfterIds` as an explicit record. -/
theorem viewAfterIds_eq (ways : List Way) (v : View) :
    viewAfterIds ways v =
      { v with ways := v.ways ++ ways.filter (fun w => viewMatches v w),
               way_ids := v.way_ids ++
                 (v.ways ++ ways.filter (fun w => viewMatches v w)).map wayNodeIds } := by
  unfold viewAfterIds
  rw [viewAfterFilter_eq]

/-- `.loc` succeeds when every requested label is present. -/
theorem locList_ok (table : List Row) (ids : List Int)
    (h : ∀ i ∈ ids, locRows table i ≠ []) :
    locList table ids = Except.ok (ids.flatMap fun i => locRows table i) := by
  unfold locList
  have hfind : ids.find? (fun i => (locRows table i).isEmpty) = none := by
    rw [List.find?_eq_none]
    intro i hi
    simp only [List.isEmpty_iff]
    exact h i hi
  rw [hfind]

/-- Every `.loc` failure is an unknown-node-id failure. -/
theorem locList_error_shape (table : List Row) (ids : List Int) (e : PipelineError)
    (h : locList table ids = Except.error e) :
    ∃ i, e = PipelineError.unknownNodeId i := by
  unfold locList at h
  cases hf : ids.find? (fun i => (locRows table i).isEmpty) with
  | some i =>
    rw [hf] at h
    cases h
    exact ⟨i, rfl⟩
  | none =>
    rw [hf] at h
    exact Except.noConfusion h

/-- `.loc` fails when some requested label is absent. -/
theorem locList_error_of_missing (table : List Row) (ids : List Int) (i : Int)
    (hi : i ∈ ids) (hmiss : locRows table i = []) :
    ∃ e, locList table ids = Except.error e := by
  unfold locList
  cases hf : ids.find? (fun i2 => (locRows table i2).isEmpty) with
  | some j => exact ⟨PipelineError.unknownNodeId j, rfl⟩
  | none =>
    exfalso
    rw [List.find?_eq_none] at hf
    exact hf i hi (by simp [List.isEmpty_iff, hmiss])

/-- `processView` succeeds, with the resolved view, when every reference
list resolves. -/
theorem processView_ok (ways : List Way) (table : List Row) (v : View)
    (h : ∀ ids ∈ (viewAfterIds ways v).way_ids, ∀ i ∈ ids, locRows table i ≠ []) :
    processView ways table v = Except.ok (resolvedView ways table v) := by
  unfold processView resolvedView
  rw [mapM_eq_ok_map (locList table) (fun ids => ids.flatMap fun i => locRows table i) _
    (fun ids hids => locList_ok table ids (h ids hids))]

/-- `processView` fails when some matched way references an id absent from
the table. -/
theorem processView_error_of (ways : List Way) (table : List Row) (v : View) (w : Way)
    (hw : w ∈ ways) (hmatch : viewMatches v w = true) (i : Int)
    (hi : i ∈ wayNodeIds w) (hmiss : locRows table i = []) :
    ∃ e, processView ways table v = Except.error e := by
  have hmem : wayNodeIds w ∈ (viewAfterIds ways v).way_ids := by
    rw [viewAfterIds_eq]
    show wayNodeIds w ∈ v.way_ids ++ (v.ways ++ ways.filter fun w2 => viewMatches v w2).map wayNodeIds
    exact List.mem_append_right _ (List.mem_map_of_mem wayNodeIds
      (List.mem_append_right _ (List.mem_filter.mpr ⟨hw, hmatch⟩)))
  obtain ⟨e0, he0⟩ := locList_error_of_missing table (wayNodeIds w) i hi hmiss
  obtain ⟨e2, he2⟩ := mapM_error_of_mem (locList table) _ _ hmem e0 he0
  refine ⟨e2, ?_⟩
  unfold processView
  rw [he2]

/-- Every `processView` failure is an unknown-node-id failure. -/
theorem processView_error_shape (ways : List Way) (table : List Row) (v : View)
    (e : PipelineError) (h : processView ways table v = Except.error e) :
    ∃ i, e = PipelineError.unknownNodeId i := by
  unfold processView at h
  cases hm : (viewAfterIds ways v).way_ids.mapM (locList table) with
  | ok dfs =>
    rw [hm] at h
    exact Except.noConfusion h
  | error e0 =>
    rw [hm] at h
    cases h
    obtain ⟨ids, _, hloc⟩ := mapM_error_mem _ _ _ hm
    exact locList_error_shape table ids _ hloc

/-- `_process_views` succeeds pointwise when every view resolves. -/
theorem process_views_ok (ways : List Way) (table : List Row) (b : BBox)
    (width height : Rat) (views : List View)
    (h : ∀ v ∈ views, ∀ ids ∈ (viewAfterIds ways v).way_ids, ∀ i ∈ ids,
      locRows table i ≠ []) :
    process_views ways table b width height views =
      Except.ok (views.map fun v =>
        projectView b width height (resolvedView ways table v)) := by
  unfold process_views
  rw [mapM_eq_ok_map (processView ways table) (resolvedView ways table) views
    (fun v hv => processView_ok ways table v (h v hv))]
  show Except.ok ((views.map (resolvedView ways table)).map (projectView b width height)) =
    Except.ok (views.map fun v => projectView b width height (resolvedView ways table v))
  rw [List.map_map]
  rfl

/-- In a table whose ids are distinct, the only row of a member's key is
that member. -/
theorem filter_key_single (l : List Row) (hnd : (l.map Row.id).Nodup) (r : Row)
    (hr : r ∈ l) : l.filter (fun r2 => decide (r2.id = r.id)) = [r] := by
  induction l with
  | nil => exact absurd hr (by simp)
  | cons a t ih =>
    rw [List.map_cons, List.nodup_cons] at hnd
    obtain ⟨hna, hndt⟩ := hnd
    rcases List.mem_cons.mp hr with rfl | hrt
    · have ht : t.filter (fun r2 => decide (r2.id = r.id)) = [] := by
        rw [List.filter_eq_nil_iff]
        intro x hx
        simp only [decide_eq_true_eq]
        intro hxy
        exact hna (hxy ▸ List.mem_map_of_mem Row.id hx)
      simp [List.filter_cons, ht]
    · have hane : decide (a.id = r.id) = false := by
        simp only [decide_eq_false_iff_not]
        intro hh
        exact hna (hh ▸ List.mem_map_of_mem Row.id hrt)
      simp [List.filter_cons, hane, ih hndt hrt]

/-- With distinct node ids, a defined id resolves to exactly its node row,
also through the sorted table. -/
theorem locRows_single (d : Doc) (hnd : ((nodeRows d).map Row.id).Nodup) (r : Row)
    (hr : r ∈ nodeRows d) :
    locRows (create_id_lat_lon_table d) r.id = [r] := by
  have hperm : List.Perm (locRows (create_id_lat_lon_table d) r.id)
      (locRows (nodeRows d) r.id) :=
    (List.perm_insertionSort _ _).filter _
  have h2 : locRows (nodeRows d) r.id = [r] := filter_key_single (nodeRows d) hnd r hr
  rw [h2] at hperm
  exact List.perm_singleton.mp hperm

/-- A defined id has at least one row in the sorted table. -/
theorem locRows_ne_nil (d : Doc) (i : Int) (hdef : ∃ r ∈ nodeRows d, r.id = i) :
    locRows (create_id_lat_lon_table d) i ≠ [] := by
  obtain ⟨r, hr, hid⟩ := hdef
  have hmem : r ∈ locRows (create_id_lat_lon_table d) i := by
    unfold locRows create_id_lat_lon_table
    rw [List.mem_filter]
    exact ⟨(List.perm_insertionSort _ _).mem_iff.mpr hr, by simp [hid]⟩
  exact List.ne_nil_of_mem hmem

/-- An undefined id has no row in the sorted table. -/
theorem locRows_eq_nil (d : Doc) (i : Int) (hundef : ∀ r ∈ nodeRows d, r.id ≠ i) :
    locRows (create_id_lat_lon_table d) i = [] := by
  unfold locRows create_id_lat_lon_table
  rw [List.filter_eq_nil_iff]
  intro r hr
  simp only [decide_eq_true_eq]
  exact hundef r ((List.perm_insertionSort _ _).mem_iff.mp hr)

/-- Resolving a reference list whose every id has exactly one row gives the
ids back, in order. -/
theorem flatMap_locRows_ids (table : List Row) (ids : List Int)
    (h : ∀ i ∈ ids, (locRows table i).map Row.id = [i]) :
    (ids.flatMap fun i => locRows table i).map Row.id = ids := by
  induction ids with
  | nil => rfl
  | cons i t ih =>
    rw [List.flatMap_cons, List.map_append, h i (List.mem_cons_self i t),
      ih fun j hj => h j (List.mem_cons_of_mem i hj)]
    rfl

/-- The fields of a resolved-and-projected fresh view, as one filter over
the document's ways. -/
theorem resolvedView_fields (ways : List Way) (table : List Row) (b : BBox)
    (width height : Rat) (v : View)
    (hv1 : v.ways = []) (hv2 : v.way_ids = []) (hv3 : v.way_lonlat = []) :
    projectView b width height (resolvedView ways table v) =
      { v with
        ways := ways.filter (fun w => viewMatches v w),
        way_ids := (ways.filter (fun w => viewMatches v w)).map wayNodeIds,
        way_lonlat := (ways.filter (fun w => viewMatches v w)).map
          fun w => ((wayNodeIds w).flatMap fun i => locRows table i).map
            (projectRow b width height) } := by
  unfold projectView resolvedView
  rw [viewAfterIds_eq]
  simp [hv1, hv2, hv3, List.map_map]

/-- C4: for every document containing a way matched by some registered View
that references a node id not defined in the document, the projection step
fails with an unknown-node-id error (pandas `KeyError`, the spec's
`UnknownNodeIdError`) which propagates out of the pipeline — the
unresolvable way is not silently skipped. -/
theorem c4_unknown_node (d : Doc) (b : BBox) (views : List View) (width height : Rat)
    (v : View) (hv : v ∈ views) (w : Way) (hw : w ∈ select_ways d)
    (hmatch : viewMatches v w = true) (i : Int) (hi : i ∈ wayNodeIds w)
    (hundef : ∀ r ∈ nodeRows d, r.id ≠ i) :
    ∃ i2, runPipeline d b views width height =
      Except.error (PipelineError.unknownNodeId i2) := by
  have hmiss := locRows_eq_nil d i hundef
  obtain ⟨e, he⟩ := processView_error_of (select_ways d) (create_id_lat_lon_table d)
    v w hw hmatch i hi hmiss
  obtain ⟨e2, he2⟩ := mapM_error_of_mem
    (processView (select_ways d) (create_id_lat_lon_table d)) views v hv e he
  obtain ⟨v2, _, hpv2⟩ := mapM_error_mem _ _ _ he2
  obtain ⟨i3, hi3⟩ := processView_error_shape _ _ _ _ hpv2
  refine ⟨i3, ?_⟩
  unfold runPipeline process_views
  rw [he2, hi3]

theorem c4_unknown_node_witness :
    ∃ i2, runPipeline docMissing bbox01 [viewOpen] 10 10 =
      Except.error (PipelineError.unknownNodeId i2) :=
  c4_unknown_node docMissing bbox01 [viewOpen] 10 10 viewOpen (by decide)
    { children := [WayChild.nd 2] } (by decide) (by decide) 2 (by decide) (by decide)

/-- C3: for every document in which each node id is defined at most once and
every way references only defined node ids, the pipeline succeeds and
produces, for each (fresh) View, exactly one point sequence per matched way,
in matched-way order (document order of the matching ways), each point
sequence carrying the ids of that way's node references in their original
order — hence of the same length as the way's node-reference count, no point
dropped even when it projects outside the canvas. -/
theorem c3_roundtrip (d : Doc) (b : BBox) (views : List View) (width height : Rat)
    (hnodup : ((nodeRows d).map Row.id).Nodup)
    (hdefined : ∀ w ∈ select_ways d, ∀ i ∈ wayNodeIds w, ∃ r ∈ nodeRows d, r.id = i)
    (hfresh : ∀ v ∈ views, v.ways = [] ∧ v.way_ids = [] ∧ v.way_lonlat = []) :
    ∃ vs, runPipeline d b views width height = Except.ok vs ∧
      vs.length = views.length ∧
      ∀ k (hk : k < views.length) (hk2 : k < vs.length),
        vs[k].ways = (select_ways d).filter (fun w => viewMatches views[k] w) ∧
        vs[k].way_lonlat.length = vs[k].ways.length ∧
        ∀ j (hj : j < vs[k].way_lonlat.length) (hj2 : j < vs[k].ways.length),
          (vs[k].way_lonlat[j]).map Row.id = wayNodeIds (vs[k].ways[j]) := by
  have hpres : ∀ v ∈ views, ∀ ids ∈ (viewAfterIds (select_ways d) v).way_ids,
      ∀ i ∈ ids, locRows (create_id_lat_lon_table d) i ≠ [] := by
    intro v hv ids hids i hi
    obtain ⟨hv1, hv2, hv3⟩ := hfresh v hv
    rw [viewAfterIds_eq] at hids
    have hids2 : ids ∈ v.way_ids ++
        (v.ways ++ (select_ways d).filter fun w => viewMatches v w).map wayNodeIds := hids
    rw [hv1, hv2, List.nil_append, List.nil_append] at hids2
    obtain ⟨w, hwmem, rfl⟩ := List.mem_map.mp hids2
    exact locRows_ne_nil d i (hdefined w (List.mem_filter.mp hwmem).1 i hi)
  have hrun := process_views_ok (select_ways d) (create_id_lat_lon_table d)
    b width height views hpres
  refine ⟨_, hrun, by simp, ?_⟩
  intro k hk hk2
  obtain ⟨hv1, hv2, hv3⟩ := hfresh views[k] (List.getElem_mem hk)
  have hgetk : (views.map fun v => projectView b width height
      (resolvedView (select_ways d) (create_id_lat_lon_table d) v))[k] =
      projectView b width height
        (resolvedView (select_ways d) (create_id_lat_lon_table d) views[k]) := by
    rw [List.getElem_map]
  rw [hgetk, resolvedView_fields _ _ b width height _ hv1 hv2 hv3]
  refine ⟨rfl, by simp, ?_⟩
  intro j hj hj2
  simp only [List.getElem_map] at hj hj2 ⊢
  rw [List.map_map]
  have hcomp : Row.id ∘ projectRow b width height = Row.id := rfl
  rw [hcomp]
  apply flatMap_locRows_ids
  intro i hi
  have hj3 : j < ((select_ways d).filter fun w => viewMatches views[k] w).length := by
    simpa using hj
  have hw0 := List.getElem_mem hj3
  obtain ⟨r, hr, hid⟩ := hdefined _ (List.mem_filter.mp hw0).1 i hi
  have hsing := locRows_single d hnodup r hr
  rw [hid] at hsing
  rw [hsing]
  simp [hid]

theorem c3_roundtrip_witness :
    ∃ vs, runPipeline docSmall bbox01 [viewOpen] 10 10 = Except.ok vs ∧
      vs.length = ([viewOpen] : List View).length ∧
      ∀ k (hk : k < ([viewOpen] : List View).length) (hk2 : k < vs.length),
        vs[k].ways = (select_ways docSmall).filter
          (fun w => viewMatches ([viewOpen] : List View)[k] w) ∧
        vs[k].way_lonlat.length = vs[k].ways.length ∧
        ∀ j (hj : j < vs[k].way_lonlat.length) (hj2 : j < vs[k].ways.length),
          (vs[k].way_lonlat[j]).map Row.id = wayNodeIds (vs[k].ways[j]) :=
  c3_roundtrip docSmall bbox01 [viewOpen] 10 10 (by decide) (by decide) (by decide)

/-- The fuel-based digits agree with `Nat.digits 10`. -/
theorem digitsBase10_eq (fuel n : Nat) (h : n ≤ fuel) :
    digitsBase10 fuel n = Nat.digits 10 n := by
  induction fuel generalizing n with
  | zero =>
    have hn : n = 0 := by omega
    subst hn
    simp [digitsBase10]
  | succ f ih =>
    by_cases hn : n = 0
    · subst hn
      simp [digitsBase10]
    · rw [show digitsBase10 (f + 1) n =
        if n = 0 then [] else n % 10 :: digitsBase10 f (n / 10) from rfl]
      rw [if_neg hn]
      have hdiv : n / 10 ≤ f := by
        have := Nat.div_lt_self (Nat.pos_of_ne_zero hn) (by norm_num : 1 < 10)
        omega
      rw [ih (n / 10) hdiv,
        Nat.digits_def' (by norm_num : (1 : Nat) < 10) (Nat.pos_of_ne_zero hn)]

/-- `charToDigit` inverts `digitChar` on decimal digits. -/
theorem charToDigit_digitChar (d : Nat) (h : d < 10) :
    charToDigit (digitChar d) = d := by
  interval_cases d <;> rfl

/-- Every character of `natChars` is a decimal digit character. -/
theorem charToDigit_lt_of_mem_natChars (n : Nat) (c : Char) (hc : c ∈ natChars n) :
    charToDigit c < 10 := by
  unfold natChars at hc
  by_cases h : n = 0
  · rw [if_pos h] at hc
    simp only [List.mem_singleton] at hc
    subst hc
    decide
  · rw [if_neg h, digitsBase10_eq n n le_rfl] at hc
    obtain ⟨d, hd, rfl⟩ := List.mem_map.mp hc
    have hd2 := Nat.digits_lt_base (by norm_num : (1 : Nat) < 10) (List.mem_reverse.mp hd)
    rw [charToDigit_digitChar d hd2]
    exact hd2

/-- `natChars` never renders the empty string. -/
theorem natChars_ne_nil (n : Nat) : natChars n ≠ [] := by
  unfold natChars
  by_cases h : n = 0
  · simp [h]
  · rw [if_neg h, digitsBase10_eq n n le_rfl]
    simp [Nat.digits_ne_nil_iff_ne_zero.mpr h]

/-- Parsing inverts rendering on natural numbers. -/
theorem charsToNat_natChars (n : Nat) : charsToNat (natChars n) = n := by
  unfold natChars charsToNat
  by_cases h : n = 0
  · subst h
    rfl
  · rw [if_neg h, digitsBase10_eq n n le_rfl, List.map_map]
    have hpt : ∀ d ∈ (Nat.digits 10 n).reverse, (charToDigit ∘ digitChar) d = id d :=
      fun d hd => charToDigit_digitChar d
        (Nat.digits_lt_base (by norm_num : (1 : Nat) < 10) (List.mem_reverse.mp hd))
    rw [List.map_congr_left hpt, List.map_id, List.reverse_reverse, Nat.ofDigits_digits]

/-- Leading zeros contribute nothing. -/
theorem ofDigits_replicate_zero (b k : Nat) :
    Nat.ofDigits b (List.replicate k 0) = 0 := by
  induction k with
  | zero => rfl
  | succ k2 ih =>
    rw [List.replicate_succ, Nat.ofDigits_cons, ih]
    simp

/-- Parsing inverts the zero-padded rendering. -/
theorem charsToNat_pad4 (m : Nat) : charsToNat (pad4 m) = m := by
  have h : charsToNat (pad4 m) = charsToNat (natChars m) := by
    unfold charsToNat pad4
    rw [List.map_append, List.map_replicate]
    have h0 : charToDigit '0' = 0 := rfl
    rw [h0, List.reverse_append, List.reverse_replicate, Nat.ofDigits_append,
      ofDigits_replicate_zero]
    simp
  rw [h, charsToNat_natChars]

/-- Every character of `pad4` is a decimal digit character. -/
theorem charToDigit_lt_of_mem_pad4 (m : Nat) (c : Char) (hc : c ∈ pad4 m) :
    charToDigit c < 10 := by
  unfold pad4 at hc
  rcases List.mem_append.mp hc with h | h
  · have hc0 := List.eq_of_mem_replicate h
    subst hc0
    decide
  · exact charToDigit_lt_of_mem_natChars m c h

/-- The characters of a formatted field: digits, the sign, or the dot. -/
theorem mem_fieldChars_cases (k : Int) (c : Char) (hc : c ∈ fieldChars k) :
    charToDigit c < 10 ∨ c = '-' ∨ c = '.' := by
  unfold fieldChars at hc
  simp only [List.mem_append, List.mem_cons] at hc
  rcases hc with (h | h) | h | h
  · by_cases hk : k < 0
    · rw [if_pos hk] at h
      simp only [List.mem_singleton] at h
      exact Or.inr (Or.inl h)
    · rw [if_neg hk] at h
      exact absurd h (by simp)
  · exact Or.inl (charToDigit_lt_of_mem_natChars _ c h)
  · exact Or.inr (Or.inr h)
  · exact Or.inl (charToDigit_lt_of_mem_pad4 _ c h)

/-- No formatted field contains the underscore separator. -/
theorem fieldChars_ne_us (k : Int) (c : Char) (hc : c ∈ fieldChars k) :
    (fun c2 => decide (c2 ≠ '_')) c = true := by
  simp only [decide_eq_true_eq]
  rcases mem_fieldChars_cases k c hc with h | h | h
  · intro hcu
    subst hcu
    exact absurd h (by decide)
  · subst h
    decide
  · subst h
    decide

/-- Splitting a list at the first separator recovers both parts when the
prefix is separator-free. -/
theorem split_at_sep (p : Char → Bool) (l r : List Char) (x : Char)
    (hl : ∀ c ∈ l, p c = true) (hx : p x = false) :
    (l ++ x :: r).takeWhile p = l ∧ (l ++ x :: r).dropWhile p = x :: r := by
  induction l with
  | nil => simp [List.takeWhile_cons, List.dropWhile_cons, hx]
  | cons a t ih =>
    have ha := hl a (List.mem_cons_self a t)
    obtain ⟨ih1, ih2⟩ := ih fun c hc => hl c (List.mem_cons_of_mem a hc)
    simp [List.takeWhile_cons, List.dropWhile_cons, ha, ih1, ih2]

/-- `takeField` splits a formatted field off the joined id string. -/
theorem takeField_append (k : Int) (rest : List Char) :
    takeField (fieldChars k ++ '_' :: rest) = (fieldChars k, rest) := by
  unfold takeField
  obtain ⟨h1, h2⟩ := split_at_sep (fun c2 => decide (c2 ≠ '_')) (fieldChars k) rest '_'
    (fun c hc => fieldChars_ne_us k c hc) (by decide)
  rw [h1, h2]
  rfl

/-- `parseField` on a sign-prefixed field. -/
theorem parseField_cons_neg (l : List Char) :
    parseField ('-' :: l) =
      -((charsToNat (l.takeWhile fun c => decide (c ≠ '.')) * 10000 +
        charsToNat ((l.dropWhile fun c => decide (c ≠ '.')).drop 1) : Nat) : Int) := by
  unfold parseField
  have hcond : ('-' :: l).head? = some '-' := rfl
  rw [if_pos hcond]
  rfl

/-- `parseField` on an unsigned field. -/
theorem parseField_not_neg (l : List Char) (h : l.head? ≠ some '-') :
    parseField l =
      ((charsToNat (l.takeWhile fun c => decide (c ≠ '.')) * 10000 +
        charsToNat ((l.dropWhile fun c => decide (c ≠ '.')).drop 1) : Nat) : Int) := by
  unfold parseField
  rw [if_neg h]

/-- Parsing inverts the fixed-precision field rendering. -/
theorem parseField_fieldChars (k : Int) : parseField (fieldChars k) = k := by
  obtain ⟨hdot1, hdot2⟩ := split_at_sep (fun c => decide (c ≠ '.'))
    (natChars (k.natAbs / 10000)) (pad4 (k.natAbs % 10000)) '.'
    (fun c hc => by
      simp only [decide_eq_true_eq]
      intro hcd
      subst hcd
      exact absurd (charToDigit_lt_of_mem_natChars _ _ hc) (by decide))
    (by decide)
  obtain ⟨c0, t0, hct⟩ := List.exists_cons_of_ne_nil (natChars_ne_nil (k.natAbs / 10000))
  have hc0 : charToDigit c0 < 10 := charToDigit_lt_of_mem_natChars _ c0
    (by rw [hct]; exact List.mem_cons_self c0 t0)
  have hc0ne : c0 ≠ '-' := by
    intro hh
    subst hh
    exact absurd hc0 (by decide)
  have hmod := Nat.div_add_mod k.natAbs 10000
  by_cases hk : k < 0
  · have hfc : fieldChars k =
        '-' :: (natChars (k.natAbs / 10000) ++ '.' :: pad4 (k.natAbs % 10000)) := by
      unfold fieldChars
      rw [if_pos hk]
      rfl
    rw [hfc, parseField_cons_neg, hdot1, hdot2]
    have hdrop : (('.' :: pad4 (k.natAbs % 10000)).drop 1) = pad4 (k.natAbs % 10000) := rfl
    rw [hdrop, charsToNat_natChars, charsToNat_pad4]
    omega
  · have hfc : fieldChars k =
        natChars (k.natAbs / 10000) ++ '.' :: pad4 (k.natAbs % 10000) := by
      unfold fieldChars
      rw [if_neg hk]
      rfl
    have hhead : (natChars (k.natAbs / 10000) ++ '.' :: pad4 (k.natAbs % 10000)).head? ≠
        some '-' := by
      rw [hct]
      simp only [List.cons_append, List.head?_cons]
      intro hh
      exact hc0ne (Option.some.inj hh)
    rw [hfc, parseField_not_neg _ hhead, hdot1, hdot2]
    have hdrop : (('.' :: pad4 (k.natAbs % 10000)).drop 1) = pad4 (k.natAbs % 10000) := rfl
    rw [hdrop, charsToNat_natChars, charsToNat_pad4]
    omega

/-- Appending two literal strings appends their characters. -/
theorem mkStr_append (l1 l2 : List Char) :
    String.mk l1 ++ String.mk l2 = String.mk (l1 ++ l2) := rfl

/-- The characters of `BBox.id`: the four formatted fields joined by `_`. -/
theorem bboxId_data (b : BBox) :
    (BBox.id b).data =
      fieldChars (round4 b.lon_min) ++ '_' :: (fieldChars (round4 b.lon_max) ++ '_' ::
        (fieldChars (round4 b.lat_min) ++ '_' :: fieldChars (round4 b.lat_max))) := by
  show (String.mk (fieldChars (round4 b.lon_min)) ++ String.mk ['_'] ++
    String.mk (fieldChars (round4 b.lon_max)) ++ String.mk ['_'] ++
    String.mk (fieldChars (round4 b.lat_min)) ++ String.mk ['_'] ++
    String.mk (fieldChars (round4 b.lat_max))).data = _
  rw [mkStr_append, mkStr_append, mkStr_append, mkStr_append, mkStr_append, mkStr_append]
  show fieldChars (round4 b.lon_min) ++ ['_'] ++ fieldChars (round4 b.lon_max) ++ ['_'] ++
    fieldChars (round4 b.lat_min) ++ ['_'] ++ fieldChars (round4 b.lat_max) = _
  simp [List.append_assoc]

/-- Parsing inverts the id rendering: the id string determines the four
rounded bounds. -/
theorem parseId_bboxId (b : BBox) :
    parseId (BBox.id b).data =
      (round4 b.lon_min, round4 b.lon_max, round4 b.lat_min, round4 b.lat_max) := by
  rw [bboxId_data]
  unfold parseId
  simp only [takeField_append, parseField_fieldChars]

/-- C7: the GeoBox id is a pure, deterministic function of the four bounds:
any two BBoxes with numerically equal bounds have identical ids, and any two
BBoxes whose bounds differ beyond the fixed formatting precision — i.e.
whose values rounded to `10^-4` units (`round4`, the precision of the
`f"{x:.4f}"` formatting) differ in some position — have differing ids. -/
theorem c7_id_deterministic (b b2 : BBox) :
    ((b.lon_min = b2.lon_min ∧ b.lon_max = b2.lon_max ∧ b.lat_min = b2.lat_min ∧
        b.lat_max = b2.lat_max) → BBox.id b = BBox.id b2) ∧
    ((round4 b.lon_min ≠ round4 b2.lon_min ∨ round4 b.lon_max ≠ round4 b2.lon_max ∨
        round4 b.lat_min ≠ round4 b2.lat_min ∨ round4 b.lat_max ≠ round4 b2.lat_max) →
      BBox.id b ≠ BBox.id b2) := by
  constructor
  · rintro ⟨e1, e2, e3, e4⟩
    unfold BBox.id BBox.lon_min_str BBox.lon_max_str BBox.lat_min_str BBox.lat_max_str
    rw [e1, e2, e3, e4]
  · intro hne heq
    have hparse := congrArg parseId (congrArg String.data heq)
    rw [parseId_bboxId, parseId_bboxId] at hparse
    rcases hne with h | h | h | h
    · exact h (congrArg (fun t => t.1) hparse)
    · exact h (congrArg (fun t => t.2.1) hparse)
    · exact h (congrArg (fun t => t.2.2.1) hparse)
    · exact h (congrArg (fun t => t.2.2.2) hparse)

theorem c7_id_deterministic_witness :
    BBox.id bbox01 = BBox.id bbox01 ∧
    BBox.id bbox01 ≠ BBox.id { lon_min := 0, lon_max := 1, lat_min := 0, lat_max := 2 } :=
  ⟨(c7_id_deterministic bbox01 bbox01).1 ⟨rfl, rfl, rfl, rfl⟩,
    (c7_id_deterministic bbox01 { lon_min := 0, lon_max := 1, lat_min := 0, lat_max := 2 }).2
      (Or.inr (Or.inr (Or.inr (by with_unfolding_all decide))))⟩
